import Mathlib

/-!
Shallow embedding of `hugegmaps.py` (GMapImageCollect).

The program pans a browser across Google Maps, captures a grid of screen
regions, scales them, and stitches them into one large image.  The pure
geometric/grid core (`calc_latitude_shift`, `calc_longitude_shift`, the crop
box computed in `screenshot`, `scale_image`, `combine_images`) is translated
directly; the external collaborators (selenium browser, `pyscreenshot`,
tkinter screen query, the filesystem, PIL's resampling) are modelled as an
explicit environment plus an event trace, so that the control flow of
`create_map` — validation, browser lifecycle, row-major iteration,
failure propagation — is captured faithfully.

Numbers: Python floats are modelled as exact rationals (`ℚ`); Python `int()`
truncates toward zero and Python `round` rounds half to even, both modelled
explicitly below.
-/

namespace HugeGmaps

/-- Python `int()` applied to a float: truncation toward zero. -/
def pyInt (q : ℚ) : ℤ := if 0 ≤ q then ⌊q⌋ else ⌈q⌉

/-- Python `round` to an integer: round half to even (banker's rounding). -/
def pyRound (q : ℚ) : ℤ :=
  if q - ⌊q⌋ < 1/2 then ⌊q⌋
  else if 1/2 < q - ⌊q⌋ then ⌊q⌋ + 1
  else if ⌊q⌋ % 2 = 0 then ⌊q⌋ else ⌊q⌋ + 1

/-- An in-memory raster image (PIL `Image`): a width, a height and a pixel
map giving the RGB value at each coordinate (values outside the
`width × height` rectangle are irrelevant junk). -/
structure Image where
  width : ℕ
  height : ℕ
  pix : ℕ → ℕ → ℕ × ℕ × ℕ

instance : Inhabited Image := ⟨⟨0, 0, fun _ _ => (0, 0, 0)⟩⟩

/-- Model of `PIL.Image.new('RGB', (w, h))`: a blank black canvas. -/
def Image.new (w h : ℕ) : Image := ⟨w, h, fun _ _ => (0, 0, 0)⟩

/-- Model of `canvas.paste(img, (ox, oy))`: writes `img`'s pixels at offset
`(ox, oy)`, leaving every other pixel of the canvas unchanged; the canvas
dimensions do not change. -/
def Image.paste (canvas img : Image) (ox oy : ℕ) : Image :=
  { width := canvas.width, height := canvas.height,
    pix := fun x y =>
      if ox ≤ x ∧ x < ox + img.width ∧ oy ≤ y ∧ y < oy + img.height then
        img.pix (x - ox) (y - oy)
      else canvas.pix x y }

/-- One step of Pillow's `thumbnail` size computation,
`round_aspect(number, key)`: whichever of `floor(number)` and `ceil(number)`
is smaller under `key` (the floor on ties, as Python's stable `min`), but at
least 1. -/
def round_aspect (number : ℚ) (key : ℤ → ℚ) : ℤ :=
  max (if key ⌊number⌋ ≤ key ⌈number⌉ then ⌊number⌋ else ⌈number⌉) 1

/-- The aspect-ratio-preserving size Pillow's `thumbnail` actually resizes
to when the request `(x, y)` is not a no-op: with
`aspect = width / height`, if `x / y >= aspect` the request is tighter
vertically, so `y` is kept and `x` becomes
`round_aspect(y * aspect, key=|aspect - n / y|)`; otherwise `x` is kept and
`y` becomes `round_aspect(x / aspect, key=|aspect - x / n|)` (with key 0 at
`n = 0`).  Python float arithmetic is modelled by exact rationals; a zero
`y` or `height`, where the Python division raises `ZeroDivisionError`, is
outside the scope of the theorems below. -/
def thumbnail_size (width height : ℕ) (x y : ℤ) : ℤ × ℤ :=
  let aspect : ℚ := (width : ℚ) / height
  if aspect ≤ (x : ℚ) / y then
    (round_aspect ((y : ℚ) * aspect) (fun n => |aspect - (n : ℚ) / y|), y)
  else
    (x, round_aspect ((x : ℚ) / aspect)
          (fun n => if n = 0 then 0 else |aspect - (x : ℚ) / n|))

/-- Model of `PIL.Image.thumbnail((w, h))` (an external collaborator),
following Pillow's implementation: a no-op when the requested size is at
least the current size in both dimensions (never upscales), and otherwise a
resize to the request recomputed by `thumbnail_size` to preserve the aspect
ratio (`scale_image` passes integers, so Python's `map(math.floor, size)`
is the identity).  Resampled pixel content is not specified by the spec;
the model keeps the pixel map. -/
def Image.thumbnail (image : Image) (w h : ℤ) : Image :=
  if (image.width : ℤ) ≤ w ∧ (image.height : ℤ) ≤ h then image
  else
    let size := thumbnail_size image.width image.height w h
    { width := size.1.toNat, height := size.2.toNat, pix := image.pix }

/-- Translation of `calc_latitude_shift(screen_height, percent_hidden)`:
`-0.000002051 * screen_height * (1 - percent_hidden) * 2.1`. -/
def calc_latitude_shift (screen_height : ℕ) (percent_hidden : ℚ) : ℚ :=
  -0.000002051 * screen_height * (1 - percent_hidden) * 2.1

/-- Translation of `calc_longitude_shift(screen_width, percent_hidden)`:
`0.00000268 * screen_width * (1 - percent_hidden) * 2`. -/
def calc_longitude_shift (screen_width : ℕ) (percent_hidden : ℚ) : ℚ :=
  0.00000268 * screen_width * (1 - percent_hidden) * 2

/-- The pixel bounding box computed inside `screenshot`:
`x1 = offset_left * screen_width`, `y1 = offset_top * screen_height`,
`x2 = (offset_right * -screen_width) + screen_width`,
`y2 = (offset_bottom * -screen_height) + screen_height`,
each passed through Python `int()`. -/
def screenshot_box (screen_width screen_height : ℕ)
    (offset_left offset_top offset_right offset_bottom : ℚ) :
    ℤ × ℤ × ℤ × ℤ :=
  (pyInt (offset_left * screen_width),
   pyInt (offset_top * screen_height),
   pyInt (offset_right * -(screen_width : ℚ) + screen_width),
   pyInt (offset_bottom * -(screen_height : ℚ) + screen_height))

/-- Translation of `scale_image(image, scale)`:
`width = round(image.width * scale)`, `height = round(image.height * scale)`,
`image.thumbnail((width, height))`. -/
def scale_image (image : Image) (scale : ℚ) : Image :=
  let width := pyRound (image.width * scale)
  let height := pyRound (image.height * scale)
  image.thumbnail width height

/-- One row of the stitching loop of `combine_images`:
`for colindex, image in enumerate(row): newimage.paste(image, (colindex * imgwidth, rowindex * imgheight))`.
The argument is the already-enumerated row and `oy = rowindex * imgheight`. -/
def stitchRow (imgwidth oy : ℕ) (canvas : Image) (row : List (ℕ × Image)) : Image :=
  row.foldl (fun acc pc => acc.paste pc.2 (pc.1 * imgwidth) oy) canvas

/-- The outer stitching loop of `combine_images`:
`for rowindex, row in enumerate(images): ...` running `stitchRow` on each
enumerated row at vertical offset `rowindex * imgheight`. -/
def stitchGrid (imgwidth imgheight : ℕ) (canvas : Image)
    (rows : List (ℕ × List Image)) : Image :=
  rows.foldl (fun acc pr => stitchRow imgwidth (pr.1 * imgheight) acc pr.2.enum) canvas

/-- Translation of `combine_images(images)`: reads the width and height of
`images[0][0]`, creates a blank canvas of size
`(imgwidth * len(images[0]), imgheight * len(images))` and pastes every tile
at `(colindex * imgwidth, rowindex * imgheight)`.  On an empty grid the
Python code raises `IndexError`; the model reads a default and is only ever
stated on nonempty grids. -/
def combine_images (images : List (List Image)) : Image :=
  let imgwidth := ((images.headD []).headD default).width
  let imgheight := ((images.headD []).headD default).height
  let newimage := Image.new (imgwidth * (images.headD []).length)
                            (imgheight * images.length)
  stitchGrid imgwidth imgheight newimage images.enum

/-- Observable side effects of a `create_map` run, in order of occurrence:
browser launch (`webdriver.Chrome()`), window maximize, each navigation
(`driver.get(url)` — recorded by the coordinate the URL encodes), each
`time.sleep`, `driver.close()`, `driver.quit()`, the call to
`combine_images`, and the final `final.save(outfile)` (recorded with the
saved image's dimensions). -/
inductive Event where
  | launch : Event
  | maximize : Event
  | navigate : ℚ → ℚ → Event
  | sleep : ℚ → Event
  | close : Event
  | quit : Event
  | stitch : Event
  | saveFile : String → ℕ → ℕ → Event
deriving DecidableEq

/-- Python exceptions that the model can raise: `AssertionError` from the
three `assert` statements validating `outfile`, and the `AttributeError` raised
when `scale_image` dereferences `image.width` on a `None` capture. -/
inductive PyError where
  | assertionError : PyError
  | attributeErrorNone : PyError
deriving DecidableEq

/-- The external collaborators of `create_map`, as oracles:
`pathExists s` — `os.path.exists(outfile)`;
`dirWritable s` — `os.access(os.path.dirname(os.path.abspath(outfile)), os.W_OK)`;
`screen` — the tkinter screen resolution `(width, height)`;
`grab box k` — the result of the `k`-th `pyscreenshot.grab(bbox=box)` call
(`none` models a null capture; the box is the same on every call but the
screen contents change over time, hence the call index);
`timestamp` — `datetime.now().strftime('%Y-%m-%dT%H-%M-%S')`. -/
structure Env where
  pathExists : String → Bool
  dirWritable : String → Bool
  screen : ℕ × ℕ
  grab : ℤ × ℤ × ℤ × ℤ → ℕ → Option Image
  timestamp : String

/-- Translation of `screenshot(...)`: computes the crop box from the screen
size and the offsets, then calls `pyscreenshot.grab` (the `k`-th call of the
run). -/
def screenshot (env : Env) (k : ℕ) (screen_width screen_height : ℕ)
    (offset_left offset_top offset_right offset_bottom : ℚ) : Option Image :=
  env.grab (screenshot_box screen_width screen_height
              offset_left offset_top offset_right offset_bottom) k

/-- The update `images[row][col] = v` on a 2D list. -/
def set2d (g : List (List (Option Image))) (row col : ℕ) (v : Option Image) :
    List (List (Option Image)) :=
  g.set row ((g.getD row []).set col v)

/-- Mutable state threaded through the grid loop of `create_map`: the event
trace so far and the 2D grid `images` (initialized to all `None`). -/
structure RunState where
  events : List Event
  images : List (List (Option Image))

/-- The iteration order of the nested loops
`for row in range(number_rows): for col in range(number_cols):`. -/
def cellList (number_rows number_cols : ℕ) : List (ℕ × ℕ) :=
  (List.range number_rows).flatMap
    (fun row => (List.range number_cols).map (fun col => (row, col)))

/-- The body of the nested grid loop of `create_map`, one step per cell in
`cellList` order, with `k` counting the `pyscreenshot.grab` calls made so
far.  Per cell: compute `latitude = lat_start + lat_shift * row` and
`longitude = long_start + long_shift * col`, navigate, sleep, capture, and
store the scaled tile.  A `None` capture makes `scale_image` read
`image.width` on `None`, raising `AttributeError` — the run stops there with
the events accumulated so far. -/
def runLoop (env : Env) (lat_start long_start lat_shift long_shift : ℚ)
    (scale sleep_time : ℚ)
    (offset_left offset_top offset_right offset_bottom : ℚ)
    (screen_width screen_height : ℕ) :
    List (ℕ × ℕ) → ℕ → RunState → RunState × Option PyError
  | [], _, st => (st, none)
  | (row, col) :: rest, k, st =>
    let latitude := lat_start + lat_shift * row
    let longitude := long_start + long_shift * col
    let st1 : RunState :=
      { st with events := st.events ++ [Event.navigate latitude longitude,
                                        Event.sleep sleep_time] }
    match screenshot env k screen_width screen_height
            offset_left offset_top offset_right offset_bottom with
    | none => (st1, some PyError.attributeErrorNone)
    | some image =>
        runLoop env lat_start long_start lat_shift long_shift scale sleep_time
          offset_left offset_top offset_right offset_bottom
          screen_width screen_height rest (k + 1)
          { st1 with images := set2d st1.images row col
                                 (some (scale_image image scale)) }

/-- Python truthiness of the `outfile` argument: `None` and `''` are falsy. -/
def truthyOutfile : Option String → Bool
  | none => false
  | some s => !(s == "")

/-- The conjunction of the three `assert`ed conditions on a (truthy)
`outfile`: the path does not exist, its directory is writable, and
`outfile.upper().endswith('.PNG')`. -/
def outfile_ok (env : Env) (s : String) : Bool :=
  (!env.pathExists s) && env.dirWritable s && s.toUpper.endsWith ".PNG"

/-- Translation of `create_map` after the `outfile` validation: launch and maximize the
browser, read the screen resolution, compute the two shifts, run the grid
loop, and on normal completion close and quit the browser, stitch the grid
with `combine_images` and save the result.  An error propagating out of the
loop ends the run immediately — nothing after the loop happens. -/
def create_map_body (env : Env) (lat_start long_start : ℚ)
    (number_rows number_cols : ℕ) (scale sleep_time : ℚ)
    (offset_left offset_top offset_right offset_bottom : ℚ)
    (outfile : Option String) : List Event × Option PyError :=
  let screen_width := env.screen.1
  let screen_height := env.screen.2
  let lat_shift := calc_latitude_shift screen_height (offset_top + offset_bottom)
  let long_shift := calc_longitude_shift screen_width (offset_left + offset_right)
  let st0 : RunState :=
    { events := [Event.launch, Event.maximize],
      images := List.replicate number_rows
                  (List.replicate number_cols (none : Option Image)) }
  match runLoop env lat_start long_start lat_shift long_shift scale sleep_time
          offset_left offset_top offset_right offset_bottom
          screen_width screen_height (cellList number_rows number_cols) 0 st0 with
  | (st, some e) => (st.events, some e)
  | (st, none) =>
    let final := combine_images (st.images.map (fun row =>
                    row.map (fun o => o.getD default)))
    let outname := if truthyOutfile outfile then outfile.getD "" else
                     "testimg-" ++ env.timestamp ++ ".png"
    (st.events ++ [Event.close, Event.quit, Event.stitch,
                   Event.saveFile outname final.width final.height], none)

/-- Translation of `create_map`.  If `outfile` is truthy, the three
`assert`s run first — a failing one raises `AssertionError` before the
browser is launched.  Then the body runs. -/
def create_map (env : Env) (lat_start long_start : ℚ)
    (number_rows number_cols : ℕ) (scale sleep_time : ℚ)
    (offset_left offset_top offset_right offset_bottom : ℚ)
    (outfile : Option String) : List Event × Option PyError :=
  if truthyOutfile outfile ∧ ¬ outfile_ok env (outfile.getD "") then
    ([], some PyError.assertionError)
  else
    create_map_body env lat_start long_start number_rows number_cols
      scale sleep_time offset_left offset_top offset_right offset_bottom outfile

/-- The coordinates navigated to during a run, in order: the payloads of the
`navigate` events of the trace. -/
def navsOf (events : List Event) : List (ℚ × ℚ) :=
  events.filterMap (fun e => match e with
    | Event.navigate la lo => some (la, lo)
    | _ => none)

/-! ### Helper lemmas on the Python rounding primitives -/

lemma pyInt_of_nonneg (q : ℚ) (h : 0 ≤ q) : pyInt q = ⌊q⌋ := if_pos h

lemma pyRound_le_int (q : ℚ) (n : ℤ) (h : q ≤ n) : pyRound q ≤ n := by
  have hfl : ⌊q⌋ ≤ n := by
    have := Int.floor_mono h
    simpa using this
  unfold pyRound
  rcases eq_or_lt_of_le hfl with heq | hlt
  · have h1 : (n : ℚ) ≤ q := by
      have := Int.floor_le q
      rw [heq] at this
      exact_mod_cast this
    have h2 : q = (n : ℚ) := le_antisymm h h1
    have hz : q - (⌊q⌋ : ℚ) = 0 := by rw [heq, h2, sub_self]
    rw [hz]
    norm_num [heq]
  · split_ifs <;> omega

lemma pyRound_natCast (n : ℕ) : pyRound (n : ℚ) = n := by
  unfold pyRound
  have h1 : ⌊(n : ℚ)⌋ = (n : ℤ) := by exact_mod_cast Int.floor_intCast (α := ℚ) n
  rw [h1]
  have h2 : (n : ℚ) - ((n : ℤ) : ℚ) = 0 := by push_cast; ring
  rw [h2]
  norm_num

/-! ### Claims C3, C7, C8 -/

/-- C3 (counterexample): with screen width and height 1 and offsets
`(left, top, right, bottom) = (0, 0, 1/2, 1/2)` — all in `[0,1)` with
`left + right < 1` and `top + bottom < 1` — the crop box computed in
`screenshot` is `(0, 0, 0, 0)`, so `x1 < x2` and `y1 < y2` both fail even
though the offsets satisfy the claimed invariant. -/
theorem screenshot_box_degenerate_cex :
    0 < 1 ∧ (0:ℚ) ≤ 1/2 ∧ (1/2 : ℚ) < 1 ∧ ((0 : ℚ) + 1/2) < 1 ∧
    screenshot_box 1 1 0 0 (1/2) (1/2) = (0, 0, 0, 0) ∧
    ¬ ((0 : ℤ) < 0) := by
  refine ⟨Nat.zero_lt_one, by norm_num, by norm_num, by norm_num, ?_, by norm_num⟩
  norm_num [screenshot_box, pyInt]

/-- C3 (amended): the crop box equals
`(int(left·W), int(top·H), int(W − right·W), int(H − bottom·H))` with
Python `int()` truncation, and `x1 < x2` and `y1 < y2` hold whenever the
retained extents are at least one pixel: `(1−left−right)·W ≥ 1` and
`(1−top−bottom)·H ≥ 1` (the bare conditions `left+right < 1`,
`top+bottom < 1` are not sufficient, see the counterexample). -/
theorem screenshot_box_spec (screen_width screen_height : ℕ) (l t r b : ℚ)
    (hW : 0 < screen_width) (hH : 0 < screen_height)
    (hl0 : 0 ≤ l) (ht0 : 0 ≤ t) (hr0 : 0 ≤ r) (hb0 : 0 ≤ b)
    (hl1 : l < 1) (ht1 : t < 1) (hr1 : r < 1) (hb1 : b < 1)
    (hx : 1 ≤ (1 - l - r) * screen_width)
    (hy : 1 ≤ (1 - t - b) * screen_height) :
    screenshot_box screen_width screen_height l t r b =
      (pyInt (l * screen_width), pyInt (t * screen_height),
       pyInt ((screen_width : ℚ) - r * screen_width),
       pyInt ((screen_height : ℚ) - b * screen_height)) ∧
    (screenshot_box screen_width screen_height l t r b).1 <
      (screenshot_box screen_width screen_height l t r b).2.2.1 ∧
    (screenshot_box screen_width screen_height l t r b).2.1 <
      (screenshot_box screen_width screen_height l t r b).2.2.2 := by
  have hW' : (0:ℚ) < screen_width := by exact_mod_cast hW
  have hH' : (0:ℚ) < screen_height := by exact_mod_cast hH
  have e1 : r * -(screen_width : ℚ) + screen_width =
      (screen_width : ℚ) - r * screen_width := by ring
  have e2 : b * -(screen_height : ℚ) + screen_height =
      (screen_height : ℚ) - b * screen_height := by ring
  refine ⟨by unfold screenshot_box; rw [e1, e2], ?_, ?_⟩
  · show pyInt (l * screen_width) <
      pyInt (r * -(screen_width : ℚ) + screen_width)
    have h1 : (0:ℚ) ≤ l * screen_width := mul_nonneg hl0 hW'.le
    have h2 : (0:ℚ) ≤ r * -(screen_width : ℚ) + screen_width := by nlinarith
    rw [pyInt_of_nonneg _ h1, pyInt_of_nonneg _ h2]
    have key : l * screen_width + 1 ≤ r * -(screen_width : ℚ) + screen_width := by
      nlinarith
    have hfl : (⌊l * (screen_width : ℚ)⌋ : ℚ) ≤ l * screen_width :=
      Int.floor_le _
    have h3 : ⌊l * (screen_width : ℚ)⌋ + 1 ≤
        ⌊r * -(screen_width : ℚ) + screen_width⌋ := by
      rw [Int.le_floor]
      push_cast
      linarith
    omega
  · show pyInt (t * screen_height) <
      pyInt (b * -(screen_height : ℚ) + screen_height)
    have h1 : (0:ℚ) ≤ t * screen_height := mul_nonneg ht0 hH'.le
    have h2 : (0:ℚ) ≤ b * -(screen_height : ℚ) + screen_height := by nlinarith
    rw [pyInt_of_nonneg _ h1, pyInt_of_nonneg _ h2]
    have key : t * screen_height + 1 ≤ b * -(screen_height : ℚ) + screen_height := by
      nlinarith
    have hfl : (⌊t * (screen_height : ℚ)⌋ : ℚ) ≤ t * screen_height :=
      Int.floor_le _
    have h3 : ⌊t * (screen_height : ℚ)⌋ + 1 ≤
        ⌊b * -(screen_height : ℚ) + screen_height⌋ := by
      rw [Int.le_floor]
      push_cast
      linarith
    omega

/-- C3 (witness): the amended statement instantiated at a 100×100 screen
with all four offsets `1/10`. -/
theorem screenshot_box_spec_witness :
    (0 < 100 ∧ (0:ℚ) ≤ 1/10 ∧ (1/10 : ℚ) < 1 ∧
      1 ≤ (1 - 1/10 - 1/10) * (100 : ℚ)) ∧
    (screenshot_box 100 100 (1/10) (1/10) (1/10) (1/10) =
      (pyInt ((1/10) * (100:ℕ)), pyInt ((1/10) * (100:ℕ)),
       pyInt (((100:ℕ) : ℚ) - (1/10) * (100:ℕ)),
       pyInt (((100:ℕ) : ℚ) - (1/10) * (100:ℕ))) ∧
    (screenshot_box 100 100 (1/10) (1/10) (1/10) (1/10)).1 <
      (screenshot_box 100 100 (1/10) (1/10) (1/10) (1/10)).2.2.1 ∧
    (screenshot_box 100 100 (1/10) (1/10) (1/10) (1/10)).2.1 <
      (screenshot_box 100 100 (1/10) (1/10) (1/10) (1/10)).2.2.2) :=
  ⟨⟨by norm_num, by norm_num, by norm_num, by norm_num⟩,
   screenshot_box_spec 100 100 (1/10) (1/10) (1/10) (1/10)
     (by norm_num) (by norm_num) (by norm_num) (by norm_num) (by norm_num)
     (by norm_num) (by norm_num) (by norm_num) (by norm_num) (by norm_num)
     (by norm_num) (by norm_num)⟩

/-- C7: for `screenHeight > 0` and `hiddenFraction ∈ [0,1)` the latitude
shift is strictly negative and strictly monotonically decreasing in
`screenHeight`; the longitude shift is strictly positive and strictly
monotonically increasing in `screenWidth`. -/
theorem calc_shift_sign_and_mono (h₁ h₂ w₁ w₂ : ℕ) (p : ℚ)
    (hp0 : 0 ≤ p) (hp1 : p < 1) (hh : 0 < h₁) (hw : 0 < w₁)
    (hmh : h₁ < h₂) (hmw : w₁ < w₂) :
    calc_latitude_shift h₁ p < 0 ∧
    calc_latitude_shift h₂ p < calc_latitude_shift h₁ p ∧
    0 < calc_longitude_shift w₁ p ∧
    calc_longitude_shift w₁ p < calc_longitude_shift w₂ p := by
  have hq : (0:ℚ) < 1 - p := by linarith
  have hh' : (0:ℚ) < h₁ := by exact_mod_cast hh
  have hw' : (0:ℚ) < w₁ := by exact_mod_cast hw
  have hmh' : (h₁:ℚ) < h₂ := by exact_mod_cast hmh
  have hmw' : (w₁:ℚ) < w₂ := by exact_mod_cast hmw
  refine ⟨?_, ?_, ?_, ?_⟩ <;>
    simp only [calc_latitude_shift, calc_longitude_shift] <;>
    nlinarith [mul_pos hh' hq, mul_pos hw' hq,
      mul_pos (sub_pos.mpr hmh') hq, mul_pos (sub_pos.mpr hmw') hq]

/-- C7 (witness): instantiated at screen heights 1080 < 1081, widths
1920 < 1921 and hidden fraction 0. -/
theorem calc_shift_sign_and_mono_witness :
    ((0:ℚ) ≤ 0 ∧ (0:ℚ) < 1 ∧ 0 < 1080 ∧ 0 < 1920 ∧ 1080 < 1081 ∧
      1920 < 1921) ∧
    (calc_latitude_shift 1080 0 < 0 ∧
     calc_latitude_shift 1081 0 < calc_latitude_shift 1080 0 ∧
     0 < calc_longitude_shift 1920 0 ∧
     calc_longitude_shift 1920 0 < calc_longitude_shift 1921 0) :=
  ⟨⟨le_refl 0, by norm_num, by norm_num, by norm_num, by norm_num, by norm_num⟩,
   calc_shift_sign_and_mono 1080 1081 1920 1921 0 (le_refl 0) (by norm_num)
     (by norm_num) (by norm_num) (by norm_num) (by norm_num)⟩

/-- Helper: `round_aspect` never exceeds an integer bound `n ≥ 1` that the
exact value is below. -/
lemma round_aspect_le (number : ℚ) (key : ℤ → ℚ) (n : ℤ)
    (h1 : 1 ≤ n) (h2 : number ≤ (n : ℚ)) :
    round_aspect number key ≤ n := by
  have hceil : ⌈number⌉ ≤ n := Int.ceil_le.mpr h2
  have hfc : ⌊number⌋ ≤ ⌈number⌉ := Int.floor_le_ceil number
  unfold round_aspect
  apply max_le _ h1
  split_ifs <;> omega

/-- Helper: `round_aspect` on an exact integer `n ≥ 1` is `n`. -/
lemma round_aspect_intCast (n : ℤ) (key : ℤ → ℚ) (h1 : 1 ≤ n) :
    round_aspect (n : ℚ) key = n := by
  unfold round_aspect
  rw [Int.floor_intCast, Int.ceil_intCast, if_pos (le_refl (key n))]
  exact max_eq_left h1

/-- Helper: the aspect-preserving size never exceeds the request, keeps one
requested dimension exactly, and is the request itself when the request
already preserves the aspect ratio. -/
lemma thumbnail_size_spec (width height : ℕ) (x y : ℤ)
    (hw : 0 < width) (hh : 0 < height) (hx : 1 ≤ x) (hy : 1 ≤ y) :
    ((thumbnail_size width height x y).1 ≤ x ∧
     (thumbnail_size width height x y).2 ≤ y) ∧
    ((thumbnail_size width height x y).1 = x ∨
     (thumbnail_size width height x y).2 = y) ∧
    ((x : ℚ) * height = (y : ℚ) * width →
      thumbnail_size width height x y = (x, y)) := by
  have hH : (0:ℚ) < height := by positivity
  have hyq : (0:ℚ) < y := by positivity
  have haspect : (0:ℚ) < (width : ℚ) / height := by positivity
  unfold thumbnail_size
  dsimp only
  split_ifs with hbr <;> dsimp only
  · have hbrT : ((width : ℚ) / height) ≤ (x : ℚ) / y := hbr
    have hya : (y : ℚ) * ((width : ℚ) / height) ≤ (x : ℚ) :=
      (le_div_iff₀' hyq).mp hbrT
    refine ⟨⟨round_aspect_le _ _ x hx hya, le_refl y⟩, Or.inr rfl, ?_⟩
    intro hcross
    have hyx : (y : ℚ) * ((width : ℚ) / height) = (x : ℚ) := by
      field_simp
      linarith [hcross]
    congr 1
    rw [hyx, round_aspect_intCast _ _ hx]
  · have hbrT : (x : ℚ) / y < (width : ℚ) / height := not_le.mp hbr
    have hxa : (x : ℚ) / ((width : ℚ) / height) ≤ (y : ℚ) := by
      have h1 : (x : ℚ) < ((width : ℚ) / height) * y :=
        (div_lt_iff₀ hyq).mp hbrT
      rw [div_le_iff₀ haspect]
      linarith [h1]
    refine ⟨⟨le_refl x, round_aspect_le _ _ y hy hxa⟩, Or.inl rfl, ?_⟩
    intro hcross
    exfalso
    have hyx : (y : ℚ) * ((width : ℚ) / height) = (x : ℚ) := by
      field_simp
      linarith [hcross]
    have heq : (x : ℚ) / y = (width : ℚ) / height := by
      rw [div_eq_iff (ne_of_gt hyq)]
      linarith [hyx]
    rw [heq] at hbrT
    exact lt_irrefl _ hbrT

/-- C8 (counterexample): Pillow's aspect-ratio recomputation refutes the
original claim: a 100×33 image scaled by `1/2` requests the size
`(round(50) = 50, round(16.5) = 16)`, but `thumbnail` recomputes it to
preserve the aspect ratio and lands on 48×16 — the width is 48 although
`width · factor = 50` exactly, a deviation beyond any rounding to the
nearest integer pixel. -/
theorem scale_image_aspect_cex :
    ((100 : ℕ) : ℚ) * (1 / 2) = 50 ∧
    (pyRound (((100 : ℕ) : ℚ) * (1 / 2))).toNat = 50 ∧
    (scale_image (⟨100, 33, fun _ _ => (0, 0, 0)⟩ : Image) (1 / 2)).width
      = 48 ∧
    (48 : ℕ) ≠ 50 := by
  with_unfolding_all decide

/-- C8 (amended): `scale_image` requests
`thumbnail((round(w·f), round(h·f)))` (Python `round`, half to even), but
PIL recomputes that size to preserve the aspect ratio.  For
`factor ∈ (0,1]`, positive image dimensions and both rounded targets at
least one pixel: the resulting dimensions never exceed the rounded targets;
one dimension equals its rounded target while the other may fall short of
it (by more than rounding); when the rounded targets preserve the aspect
ratio exactly, both dimensions equal the targets; and `factor = 1` returns
the image unchanged. -/
theorem scale_image_dims_aspect (image : Image) (f : ℚ)
    (hf0 : 0 < f) (hf1 : f ≤ 1)
    (hw0 : 0 < image.width) (hh0 : 0 < image.height)
    (htw : 1 ≤ pyRound (image.width * f))
    (hth : 1 ≤ pyRound (image.height * f)) :
    ((scale_image image f).width ≤ (pyRound (image.width * f)).toNat ∧
     (scale_image image f).height ≤ (pyRound (image.height * f)).toNat) ∧
    ((scale_image image f).width = (pyRound (image.width * f)).toNat ∨
     (scale_image image f).height = (pyRound (image.height * f)).toNat) ∧
    (f = 1 → scale_image image f = image) ∧
    ((pyRound (image.width * f) : ℚ) * image.height =
        (pyRound (image.height * f) : ℚ) * image.width →
      (scale_image image f).width = (pyRound (image.width * f)).toNat ∧
      (scale_image image f).height = (pyRound (image.height * f)).toNat)
    := by
  have hwle : (image.width : ℚ) * f ≤ (image.width : ℚ) :=
    mul_le_of_le_one_right (by positivity) hf1
  have hhle : (image.height : ℚ) * f ≤ (image.height : ℚ) :=
    mul_le_of_le_one_right (by positivity) hf1
  have hxle : pyRound ((image.width : ℚ) * f) ≤ (image.width : ℤ) :=
    pyRound_le_int _ _ (by exact_mod_cast hwle)
  have hyle : pyRound ((image.height : ℚ) * f) ≤ (image.height : ℤ) :=
    pyRound_le_int _ _ (by exact_mod_cast hhle)
  have hid : f = 1 → scale_image image f = image := by
    intro hf
    subst hf
    unfold scale_image Image.thumbnail
    dsimp only
    have e1 : (image.width : ℚ) * 1 = ((image.width : ℕ) : ℚ) := by ring
    have e2 : (image.height : ℚ) * 1 = ((image.height : ℕ) : ℚ) := by ring
    rw [e1, e2, pyRound_natCast, pyRound_natCast]
    simp
  by_cases hnop : (image.width : ℤ) ≤ pyRound ((image.width : ℚ) * f) ∧
      (image.height : ℤ) ≤ pyRound ((image.height : ℚ) * f)
  · have hx : pyRound ((image.width : ℚ) * f) = (image.width : ℤ) :=
      le_antisymm hxle hnop.1
    have hy : pyRound ((image.height : ℚ) * f) = (image.height : ℤ) :=
      le_antisymm hyle hnop.2
    have hscale : scale_image image f = image := by
      unfold scale_image Image.thumbnail
      dsimp only
      rw [if_pos hnop]
    refine ⟨?_, ?_, hid, ?_⟩
    · rw [hscale, hx, hy]
      simp
    · rw [hscale, hx]
      exact Or.inl (by simp)
    · intro hcross
      rw [hscale, hx, hy]
      exact ⟨by simp, by simp⟩
  · have hscale : scale_image image f =
        { width := (thumbnail_size image.width image.height
            (pyRound ((image.width : ℚ) * f))
            (pyRound ((image.height : ℚ) * f))).1.toNat,
          height := (thumbnail_size image.width image.height
            (pyRound ((image.width : ℚ) * f))
            (pyRound ((image.height : ℚ) * f))).2.toNat,
          pix := image.pix } := by
      unfold scale_image Image.thumbnail
      dsimp only
      rw [if_neg hnop]
    obtain ⟨⟨hle1, hle2⟩, hanchor, hexact⟩ := thumbnail_size_spec
      image.width image.height (pyRound ((image.width : ℚ) * f))
      (pyRound ((image.height : ℚ) * f)) hw0 hh0 htw hth
    refine ⟨?_, ?_, hid, ?_⟩
    · rw [hscale]
      exact ⟨Int.toNat_le_toNat hle1, Int.toNat_le_toNat hle2⟩
    · rw [hscale]
      rcases hanchor with hh1 | hh1
      · exact Or.inl (congrArg Int.toNat hh1)
      · exact Or.inr (congrArg Int.toNat hh1)
    · intro hcross
      have hpair := hexact hcross
      rw [hscale, hpair]
      exact ⟨rfl, rfl⟩

/-- C8 (witness): the amended statement instantiated at an 800×600 image
scaled by `1/2` (aspect preserved exactly, giving 400×300) and by `1`
(identity). -/
theorem scale_image_dims_aspect_witness :
    (0 < (1 / 2 : ℚ) ∧ (1 / 2 : ℚ) ≤ 1 ∧
      0 < (⟨800, 600, fun _ _ => (0, 0, 0)⟩ : Image).width ∧
      0 < (⟨800, 600, fun _ _ => (0, 0, 0)⟩ : Image).height ∧
      1 ≤ pyRound ((⟨800, 600, fun _ _ => (0, 0, 0)⟩ : Image).width
            * (1 / 2 : ℚ)) ∧
      1 ≤ pyRound ((⟨800, 600, fun _ _ => (0, 0, 0)⟩ : Image).height
            * (1 / 2 : ℚ))) ∧
    (scale_image (⟨800, 600, fun _ _ => (0, 0, 0)⟩ : Image) (1 / 2)).width
      = 400 ∧
    (scale_image (⟨800, 600, fun _ _ => (0, 0, 0)⟩ : Image) (1 / 2)).height
      = 300 ∧
    scale_image (⟨800, 600, fun _ _ => (0, 0, 0)⟩ : Image) 1 =
      (⟨800, 600, fun _ _ => (0, 0, 0)⟩ : Image) := by
  have hpw : pyRound (((800 : ℕ) : ℚ) * (1 / 2)) = 400 := by
    have e : ((800 : ℕ) : ℚ) * (1 / 2) = ((400 : ℕ) : ℚ) := by norm_num
    rw [e, pyRound_natCast]
    norm_num
  have hph : pyRound (((600 : ℕ) : ℚ) * (1 / 2)) = 300 := by
    have e : ((600 : ℕ) : ℚ) * (1 / 2) = ((300 : ℕ) : ℚ) := by norm_num
    rw [e, pyRound_natCast]
    norm_num
  have htw : (1 : ℤ) ≤ pyRound (((800 : ℕ) : ℚ) * (1 / 2)) := by
    rw [hpw]; norm_num
  have hth : (1 : ℤ) ≤ pyRound (((600 : ℕ) : ℚ) * (1 / 2)) := by
    rw [hph]; norm_num
  have hcross : (pyRound (((800 : ℕ) : ℚ) * (1 / 2)) : ℚ) * ((600 : ℕ) : ℚ)
      = (pyRound (((600 : ℕ) : ℚ) * (1 / 2)) : ℚ) * ((800 : ℕ) : ℚ) := by
    rw [hpw, hph]; norm_num
  have hpw1 : pyRound (((800 : ℕ) : ℚ) * 1) = 800 := by
    have e : ((800 : ℕ) : ℚ) * 1 = ((800 : ℕ) : ℚ) := by norm_num
    rw [e, pyRound_natCast]
    norm_num
  have hph1 : pyRound (((600 : ℕ) : ℚ) * 1) = 600 := by
    have e : ((600 : ℕ) : ℚ) * 1 = ((600 : ℕ) : ℚ) := by norm_num
    rw [e, pyRound_natCast]
    norm_num
  have H := (scale_image_dims_aspect
    (⟨800, 600, fun _ _ => (0, 0, 0)⟩ : Image) (1 / 2)
    (by norm_num) (by norm_num) (by norm_num) (by norm_num) htw hth).2.2.2
    hcross
  refine ⟨⟨by norm_num, by norm_num, by norm_num, by norm_num, htw, hth⟩,
    ?_, ?_, ?_⟩
  · exact H.1.trans
      (show (pyRound (((800 : ℕ) : ℚ) * (1 / 2))).toNat = 400 by
        rw [hpw]; rfl)
  · exact H.2.trans
      (show (pyRound (((600 : ℕ) : ℚ) * (1 / 2))).toNat = 300 by
        rw [hph]; rfl)
  · exact (scale_image_dims_aspect
      (⟨800, 600, fun _ _ => (0, 0, 0)⟩ : Image) 1
      (by norm_num) (by norm_num) (by norm_num) (by norm_num)
      (by rw [hpw1]; norm_num) (by rw [hph1]; norm_num)).2.2.1 rfl

/-! ### Claim C9 -/

/-- C9: with a (non-empty) output path that already exists, or whose parent
directory is unwritable, or whose extension is not `.png` case-insensitively,
`create_map` fails with `AssertionError` (the realization of the spec's
`InvalidOutputPath`) and its event trace is empty — in particular the
browser is never launched and no capture work is done. -/
theorem create_map_invalid_outfile (env : Env) (lat_start long_start : ℚ)
    (number_rows number_cols : ℕ) (scale sleep_time : ℚ)
    (offL offT offR offB : ℚ) (s : String) (hs : s ≠ "")
    (hbad : env.pathExists s = true ∨ env.dirWritable s = false ∨
            s.toUpper.endsWith ".PNG" = false) :
    create_map env lat_start long_start number_rows number_cols scale
        sleep_time offL offT offR offB (some s) =
      ([], some PyError.assertionError) ∧
    Event.launch ∉ (create_map env lat_start long_start number_rows
        number_cols scale sleep_time offL offT offR offB (some s)).1 := by
  have htr : truthyOutfile (some s) = true := by
    simp [truthyOutfile, hs]
  have hok : outfile_ok env s = false := by
    unfold outfile_ok
    rcases hbad with h | h | h <;> simp [h]
  have hmain : create_map env lat_start long_start number_rows number_cols
      scale sleep_time offL offT offR offB (some s) =
      ([], some PyError.assertionError) := by
    unfold create_map
    rw [if_pos]
    refine ⟨htr, ?_⟩
    simp [hok]
  exact ⟨hmain, by rw [hmain]; simp⟩

/-- Environment whose path-existence oracle reports every path as already
existing (for the C9 witness). -/
def existsEnv : Env :=
  ⟨fun _ => true, fun _ => true, (0, 0), fun _ _ => some default, "ts"⟩

/-- C9 (witness): with `outfile = "exists.png"` already existing on disk,
the run returns `AssertionError` with an empty trace. -/
theorem create_map_invalid_outfile_witness :
    ("exists.png" ≠ "") ∧ (existsEnv.pathExists "exists.png" = true) ∧
    (create_map existsEnv 0 0 1 1 1 0 0 0 0 0 (some "exists.png") =
        ([], some PyError.assertionError) ∧
      Event.launch ∉
        (create_map existsEnv 0 0 1 1 1 0 0 0 0 0 (some "exists.png")).1) :=
  ⟨by decide, rfl,
   create_map_invalid_outfile existsEnv 0 0 1 1 1 0 0 0 0 0 "exists.png"
     (by decide) (Or.inl rfl)⟩

/-! ### Trace lemmas for the grid loop -/

section TraceLemmas

variable (env : Env)
variable (lat_start long_start lat_shift long_shift scale sleep_time : ℚ)
variable (offL offT offR offB : ℚ) (W H : ℕ)

lemma runLoop_cons_some (row col : ℕ) (rest : List (ℕ × ℕ)) (k : ℕ)
    (st : RunState) (img : Image)
    (hs : screenshot env k W H offL offT offR offB = some img) :
    runLoop env lat_start long_start lat_shift long_shift scale sleep_time
        offL offT offR offB W H ((row, col) :: rest) k st =
      runLoop env lat_start long_start lat_shift long_shift scale sleep_time
        offL offT offR offB W H rest (k + 1)
        { events := st.events ++
            [Event.navigate (lat_start + lat_shift * row)
               (long_start + long_shift * col), Event.sleep sleep_time],
          images := set2d st.images row col (some (scale_image img scale)) } := by
  simp [runLoop, hs]

lemma runLoop_cons_none (row col : ℕ) (rest : List (ℕ × ℕ)) (k : ℕ)
    (st : RunState)
    (hs : screenshot env k W H offL offT offR offB = none) :
    runLoop env lat_start long_start lat_shift long_shift scale sleep_time
        offL offT offR offB W H ((row, col) :: rest) k st =
      ({ events := st.events ++
           [Event.navigate (lat_start + lat_shift * row)
              (long_start + long_shift * col), Event.sleep sleep_time],
         images := st.images },
       some PyError.attributeErrorNone) := by
  simp [runLoop, hs]

lemma runLoop_events_shape (cells : List (ℕ × ℕ)) :
    ∀ (k : ℕ) (st : RunState), ∃ l,
      ((runLoop env lat_start long_start lat_shift long_shift scale sleep_time
          offL offT offR offB W H cells k st).1).events = st.events ++ l ∧
      ∀ e ∈ l, e = Event.sleep sleep_time ∨ ∃ la lo, e = Event.navigate la lo := by
  induction cells with
  | nil => exact fun k st => ⟨[], by simp [runLoop], by simp⟩
  | cons cell rest ih =>
    intro k st
    obtain ⟨row, col⟩ := cell
    cases hs : screenshot env k W H offL offT offR offB with
    | none =>
      refine ⟨[Event.navigate (lat_start + lat_shift * row)
                 (long_start + long_shift * col), Event.sleep sleep_time],
              ?_, ?_⟩
      · rw [runLoop_cons_none env lat_start long_start lat_shift long_shift
              scale sleep_time offL offT offR offB W H row col rest k st hs]
      · intro e he
        simp only [List.mem_cons, List.not_mem_nil, or_false] at he
        rcases he with he | he
        · exact Or.inr ⟨_, _, he⟩
        · exact Or.inl he
    | some img =>
      obtain ⟨l, hl, hmem⟩ := ih (k + 1)
        { events := st.events ++
            [Event.navigate (lat_start + lat_shift * row)
               (long_start + long_shift * col), Event.sleep sleep_time],
          images := set2d st.images row col (some (scale_image img scale)) }
      refine ⟨[Event.navigate (lat_start + lat_shift * row)
                 (long_start + long_shift * col), Event.sleep sleep_time] ++ l,
              ?_, ?_⟩
      · rw [runLoop_cons_some env lat_start long_start lat_shift long_shift
              scale sleep_time offL offT offR offB W H row col rest k st img hs]
        rw [hl]
        simp
      · intro e he
        rcases List.mem_append.mp he with h | h
        · simp only [List.mem_cons, List.not_mem_nil, or_false] at h
          rcases h with h | h
          · exact Or.inr ⟨_, _, h⟩
          · exact Or.inl h
        · exact hmem e h

lemma runLoop_success (cells : List (ℕ × ℕ))
    (hall : ∀ box k, (env.grab box k).isSome = true) :
    ∀ (k : ℕ) (st : RunState),
      (runLoop env lat_start long_start lat_shift long_shift scale sleep_time
          offL offT offR offB W H cells k st).2 = none ∧
      ((runLoop env lat_start long_start lat_shift long_shift scale sleep_time
          offL offT offR offB W H cells k st).1).events =
        st.events ++ cells.flatMap (fun rc =>
          [Event.navigate (lat_start + lat_shift * rc.1)
             (long_start + long_shift * rc.2), Event.sleep sleep_time]) := by
  induction cells with
  | nil => exact fun k st => ⟨by simp [runLoop], by simp [runLoop]⟩
  | cons cell rest ih =>
    intro k st
    obtain ⟨row, col⟩ := cell
    obtain ⟨img, himg⟩ := Option.isSome_iff_exists.mp
      (hall (screenshot_box W H offL offT offR offB) k)
    have hs : screenshot env k W H offL offT offR offB = some img := himg
    rw [runLoop_cons_some env lat_start long_start lat_shift long_shift
          scale sleep_time offL offT offR offB W H row col rest k st img hs]
    obtain ⟨h1, h2⟩ := ih (k + 1)
      { events := st.events ++
          [Event.navigate (lat_start + lat_shift * row)
             (long_start + long_shift * col), Event.sleep sleep_time],
        images := set2d st.images row col (some (scale_image img scale)) }
    refine ⟨h1, ?_⟩
    rw [h2]
    simp

lemma runLoop_first_fail (cells : List (ℕ × ℕ)) :
    ∀ (k p : ℕ) (st : RunState), p < cells.length →
      (∀ m, m < p →
        (screenshot env (k + m) W H offL offT offR offB).isSome = true) →
      screenshot env (k + p) W H offL offT offR offB = none →
      (runLoop env lat_start long_start lat_shift long_shift scale sleep_time
          offL offT offR offB W H cells k st).2 =
        some PyError.attributeErrorNone := by
  induction cells with
  | nil => intro k p st hp _ _; simp at hp
  | cons cell rest ih =>
    intro k p st hp hbefore hfail
    obtain ⟨row, col⟩ := cell
    cases p with
    | zero =>
      have hs : screenshot env k W H offL offT offR offB = none := by
        simpa using hfail
      rw [runLoop_cons_none env lat_start long_start lat_shift long_shift
            scale sleep_time offL offT offR offB W H row col rest k st hs]
    | succ p =>
      have h0 := hbefore 0 (Nat.succ_pos p)
      obtain ⟨img, himg⟩ := Option.isSome_iff_exists.mp (by simpa using h0)
      rw [runLoop_cons_some env lat_start long_start lat_shift long_shift
            scale sleep_time offL offT offR offB W H row col rest k st img himg]
      apply ih (k + 1) p _ (by simpa using hp)
      · intro m hm
        have := hbefore (m + 1) (by omega)
        simpa [Nat.add_assoc, Nat.add_comm 1 m] using this
      · have : k + 1 + p = k + (p + 1) := by omega
        rw [this]
        exact hfail

end TraceLemmas

/-! ### Lemmas on the cell iteration order -/

lemma cellList_succ (R C : ℕ) :
    cellList (R + 1) C =
      cellList R C ++ (List.range C).map (fun col => (R, col)) := by
  simp only [cellList]
  rw [List.range_succ, List.flatMap_append]
  simp

lemma cellList_length (R C : ℕ) : (cellList R C).length = R * C := by
  induction R with
  | zero => simp [cellList]
  | succ R ih =>
    rw [cellList_succ]
    simp [ih, Nat.succ_mul]

lemma cellList_getElem (R C r c : ℕ) (hr : r < R) (hc : c < C) :
    (cellList R C)[r * C + c]? = some (r, c) := by
  induction R with
  | zero => omega
  | succ R ih =>
    rw [cellList_succ]
    rcases Nat.lt_or_ge r R with h | h
    · have h1 : r * C + c < (r + 1) * C := by rw [Nat.succ_mul]; omega
      have h2 : (r + 1) * C ≤ R * C := Nat.mul_le_mul_right C (by omega)
      have hlen : r * C + c < (cellList R C).length := by
        rw [cellList_length]; omega
      rw [List.getElem?_append_left hlen]
      exact ih h
    · have hr' : r = R := by omega
      subst hr'
      have hlen : (cellList r C).length ≤ r * C + c := by
        rw [cellList_length]; omega
      rw [List.getElem?_append_right hlen, cellList_length]
      have he : r * C + c - r * C = c := by omega
      rw [he, List.getElem?_map, List.getElem?_range hc]
      rfl

/-! ### Lemmas on extracting the navigation trace -/

lemma navsOf_append (l1 l2 : List Event) :
    navsOf (l1 ++ l2) = navsOf l1 ++ navsOf l2 := by
  simp [navsOf]

lemma navsOf_flat (cells : List (ℕ × ℕ)) (la lo : ℕ × ℕ → ℚ) (tq : ℚ) :
    navsOf (cells.flatMap (fun rc =>
        [Event.navigate (la rc) (lo rc), Event.sleep tq])) =
      cells.map (fun rc => (la rc, lo rc)) := by
  induction cells with
  | nil => simp [navsOf]
  | cons c rest ih =>
    rw [List.flatMap_cons, navsOf_append, ih]
    simp [navsOf]

lemma navsOf_launch_max : navsOf [Event.launch, Event.maximize] = [] := rfl

lemma navsOf_tail_nil (s : String) (w h : ℕ) :
    navsOf [Event.close, Event.quit, Event.stitch, Event.saveFile s w h] =
      [] := rfl

lemma cellList_map_flat {α : Type} (R C : ℕ) (f : ℕ × ℕ → α) :
    (cellList R C).map f =
      (List.range R).flatMap (fun r => (List.range C).map (fun c => f (r, c))) := by
  simp only [cellList, List.map_flatMap, List.map_map]
  rfl

/-! ### Case analysis of `create_map_body` on the loop outcome -/

section BodyLemmas

variable (env : Env)
variable (lat_start long_start scale sleep_time offL offT offR offB : ℚ)
variable (number_rows number_cols : ℕ) (outfile : Option String)

lemma create_map_body_err (st : RunState) (e : PyError)
    (hrl : runLoop env lat_start long_start
        (calc_latitude_shift env.screen.2 (offT + offB))
        (calc_longitude_shift env.screen.1 (offL + offR))
        scale sleep_time offL offT offR offB env.screen.1 env.screen.2
        (cellList number_rows number_cols) 0
        { events := [Event.launch, Event.maximize],
          images := List.replicate number_rows
                      (List.replicate number_cols none) } = (st, some e)) :
    create_map_body env lat_start long_start number_rows number_cols scale
        sleep_time offL offT offR offB outfile = (st.events, some e) := by
  unfold create_map_body
  dsimp only
  rw [hrl]

lemma create_map_body_ok (st : RunState)
    (hrl : runLoop env lat_start long_start
        (calc_latitude_shift env.screen.2 (offT + offB))
        (calc_longitude_shift env.screen.1 (offL + offR))
        scale sleep_time offL offT offR offB env.screen.1 env.screen.2
        (cellList number_rows number_cols) 0
        { events := [Event.launch, Event.maximize],
          images := List.replicate number_rows
                      (List.replicate number_cols none) } = (st, none)) :
    create_map_body env lat_start long_start number_rows number_cols scale
        sleep_time offL offT offR offB outfile =
      (st.events ++ [Event.close, Event.quit, Event.stitch,
         Event.saveFile
           (if truthyOutfile outfile then outfile.getD "" else
              "testimg-" ++ env.timestamp ++ ".png")
           (combine_images (st.images.map (fun row =>
              row.map (fun o => o.getD default)))).width
           (combine_images (st.images.map (fun row =>
              row.map (fun o => o.getD default)))).height], none) := by
  unfold create_map_body
  dsimp only
  rw [hrl]

lemma create_map_of_valid
    (hv : ¬ (truthyOutfile outfile = true ∧
             ¬ outfile_ok env (outfile.getD "") = true)) :
    create_map env lat_start long_start number_rows number_cols scale
        sleep_time offL offT offR offB outfile =
      create_map_body env lat_start long_start number_rows number_cols scale
        sleep_time offL offT offR offB outfile := by
  unfold create_map
  rw [if_neg hv]

end BodyLemmas

/-! ### Claim C2 -/

/-- C2 (counterexample): a run whose very first capture returns a null image
aborts with the browser still open — `launch` is in the trace but neither
`close` nor `quit` is, refuting the claim that the browser resource is
released on every exit path. -/
theorem create_map_leak_cex :
    (create_map (⟨fun _ => false, fun _ => true, (0, 0),
        fun _ k => if k = 0 then none else some default, "ts"⟩ : Env)
        0 0 1 1 1 0 0 0 0 0 none).2 = some PyError.attributeErrorNone ∧
    Event.launch ∈ (create_map (⟨fun _ => false, fun _ => true, (0, 0),
        fun _ k => if k = 0 then none else some default, "ts"⟩ : Env)
        0 0 1 1 1 0 0 0 0 0 none).1 ∧
    Event.close ∉ (create_map (⟨fun _ => false, fun _ => true, (0, 0),
        fun _ k => if k = 0 then none else some default, "ts"⟩ : Env)
        0 0 1 1 1 0 0 0 0 0 none).1 ∧
    Event.quit ∉ (create_map (⟨fun _ => false, fun _ => true, (0, 0),
        fun _ k => if k = 0 then none else some default, "ts"⟩ : Env)
        0 0 1 1 1 0 0 0 0 0 none).1 := by
  with_unfolding_all decide

/-- C2 (amended): the browser is closed and quit exactly on the
normal-completion exit path: a run ends with `close`/`quit` in its trace if
and only if it did not raise, so an error after the browser is acquired
(e.g. a capture failure mid-grid) leaks the browser session. -/
theorem create_map_browser_release (env : Env)
    (lat_start long_start scale sleep_time offL offT offR offB : ℚ)
    (number_rows number_cols : ℕ) (outfile : Option String) :
    (Event.close ∈ (create_map env lat_start long_start number_rows
        number_cols scale sleep_time offL offT offR offB outfile).1 ↔
      (create_map env lat_start long_start number_rows number_cols scale
        sleep_time offL offT offR offB outfile).2 = none) ∧
    (Event.quit ∈ (create_map env lat_start long_start number_rows
        number_cols scale sleep_time offL offT offR offB outfile).1 ↔
      (create_map env lat_start long_start number_rows number_cols scale
        sleep_time offL offT offR offB outfile).2 = none) := by
  by_cases hv : truthyOutfile outfile = true ∧
      ¬ outfile_ok env (outfile.getD "") = true
  · have hcm : create_map env lat_start long_start number_rows number_cols
        scale sleep_time offL offT offR offB outfile =
        ([], some PyError.assertionError) := by
      unfold create_map
      rw [if_pos hv]
    rw [hcm]
    simp
  · rw [create_map_of_valid env lat_start long_start scale sleep_time
        offL offT offR offB number_rows number_cols outfile hv]
    rcases hrl : runLoop env lat_start long_start
        (calc_latitude_shift env.screen.2 (offT + offB))
        (calc_longitude_shift env.screen.1 (offL + offR))
        scale sleep_time offL offT offR offB env.screen.1 env.screen.2
        (cellList number_rows number_cols) 0
        { events := [Event.launch, Event.maximize],
          images := List.replicate number_rows
                      (List.replicate number_cols none) } with ⟨st, err⟩
    cases err with
    | some e =>
      rw [create_map_body_err env lat_start long_start scale sleep_time
            offL offT offR offB number_rows number_cols outfile st e hrl]
      obtain ⟨l, hl, hmem⟩ := runLoop_events_shape env lat_start long_start
        (calc_latitude_shift env.screen.2 (offT + offB))
        (calc_longitude_shift env.screen.1 (offL + offR))
        scale sleep_time offL offT offR offB env.screen.1 env.screen.2
        (cellList number_rows number_cols) 0
        { events := [Event.launch, Event.maximize],
          images := List.replicate number_rows
                      (List.replicate number_cols none) }
      rw [hrl] at hl
      have hclose : Event.close ∉ st.events := by
        intro hin
        rw [hl] at hin
        rcases List.mem_append.mp hin with h | h
        · simp at h
        · rcases hmem _ h with h1 | ⟨la, lo, h1⟩
          · cases h1
          · cases h1
      have hquit : Event.quit ∉ st.events := by
        intro hin
        rw [hl] at hin
        rcases List.mem_append.mp hin with h | h
        · simp at h
        · rcases hmem _ h with h1 | ⟨la, lo, h1⟩
          · cases h1
          · cases h1
      constructor
      · constructor
        · intro hc; exact absurd hc hclose
        · intro h; simp at h
      · constructor
        · intro hc; exact absurd hc hquit
        · intro h; simp at h
    | none =>
      rw [create_map_body_ok env lat_start long_start scale sleep_time
            offL offT offR offB number_rows number_cols outfile st hrl]
      simp

/-! ### Claim C4 -/

/-- C4 (counterexample): two runs of a 2×2 grid, one whose capture fails at
cell (0,0) (first `grab` call) and one whose capture fails at cell (1,1)
(fourth `grab` call), raise exactly the same error value
(`AttributeError` from `scale_image` on `None`): the error does not identify
which cell failed.  The traces differ in length (4 events versus 10),
showing the failures genuinely occurred at different cells. -/
theorem create_map_error_no_cell_cex :
    (create_map (⟨fun _ => false, fun _ => true, (0, 0),
        fun _ k => if k = 0 then none else some default, "ts"⟩ : Env)
        0 0 2 2 1 0 0 0 0 0 none).2 = some PyError.attributeErrorNone ∧
    (create_map (⟨fun _ => false, fun _ => true, (0, 0),
        fun _ k => if k < 3 then some default else none, "ts"⟩ : Env)
        0 0 2 2 1 0 0 0 0 0 none).2 = some PyError.attributeErrorNone ∧
    (create_map (⟨fun _ => false, fun _ => true, (0, 0),
        fun _ k => if k = 0 then none else some default, "ts"⟩ : Env)
        0 0 2 2 1 0 0 0 0 0 none).1.length = 4 ∧
    (create_map (⟨fun _ => false, fun _ => true, (0, 0),
        fun _ k => if k < 3 then some default else none, "ts"⟩ : Env)
        0 0 2 2 1 0 0 0 0 0 none).1.length = 10 ∧
    (create_map (⟨fun _ => false, fun _ => true, (0, 0),
        fun _ k => if k = 0 then none else some default, "ts"⟩ : Env)
        0 0 2 2 1 0 0 0 0 0 none).2 =
      (create_map (⟨fun _ => false, fun _ => true, (0, 0),
        fun _ k => if k < 3 then some default else none, "ts"⟩ : Env)
        0 0 2 2 1 0 0 0 0 0 none).2 := by
  with_unfolding_all decide

/-- C4 (amended): if the capture collaborator yields a null image at the
`p`-th grid cell (in row-major order) of an otherwise valid run, the whole
session fails with `AttributeError` (raised when `scale_image` reads
`image.width` on `None`), `combine_images` is never invoked and no output
file is written; the error value itself does not carry the failing cell's
coordinates. -/
theorem create_map_capture_failure (env : Env)
    (lat_start long_start scale sleep_time offL offT offR offB : ℚ)
    (number_rows number_cols : ℕ) (outfile : Option String) (p : ℕ)
    (hout : ∀ s, outfile = some s → s = "" ∨ outfile_ok env s = true)
    (hp : p < number_rows * number_cols)
    (hbefore : ∀ m, m < p →
      (screenshot env m env.screen.1 env.screen.2 offL offT offR offB).isSome
        = true)
    (hfail : screenshot env p env.screen.1 env.screen.2 offL offT offR offB
        = none) :
    (create_map env lat_start long_start number_rows number_cols scale
        sleep_time offL offT offR offB outfile).2 =
      some PyError.attributeErrorNone ∧
    Event.stitch ∉ (create_map env lat_start long_start number_rows
        number_cols scale sleep_time offL offT offR offB outfile).1 ∧
    ∀ s w h, Event.saveFile s w h ∉ (create_map env lat_start long_start
        number_rows number_cols scale sleep_time offL offT offR offB
        outfile).1 := by
  have hv : ¬ (truthyOutfile outfile = true ∧
      ¬ outfile_ok env (outfile.getD "") = true) := by
    rcases outfile with _ | s
    · simp [truthyOutfile]
    · rcases hout s rfl with h | h
      · simp [truthyOutfile, h]
      · simp [h]
  rw [create_map_of_valid env lat_start long_start scale sleep_time
        offL offT offR offB number_rows number_cols outfile hv]
  rcases hrl : runLoop env lat_start long_start
      (calc_latitude_shift env.screen.2 (offT + offB))
      (calc_longitude_shift env.screen.1 (offL + offR))
      scale sleep_time offL offT offR offB env.screen.1 env.screen.2
      (cellList number_rows number_cols) 0
      { events := [Event.launch, Event.maximize],
        images := List.replicate number_rows
                    (List.replicate number_cols none) } with ⟨st, err⟩
  have herr := runLoop_first_fail env lat_start long_start
      (calc_latitude_shift env.screen.2 (offT + offB))
      (calc_longitude_shift env.screen.1 (offL + offR))
      scale sleep_time offL offT offR offB env.screen.1 env.screen.2
      (cellList number_rows number_cols) 0 p
      { events := [Event.launch, Event.maximize],
        images := List.replicate number_rows
                    (List.replicate number_cols none) }
      (by rw [cellList_length]; exact hp)
      (by intro m hm; simpa using hbefore m hm)
      (by simpa using hfail)
  rw [hrl] at herr
  dsimp only at herr
  subst herr
  rw [create_map_body_err env lat_start long_start scale sleep_time
        offL offT offR offB number_rows number_cols outfile st
        PyError.attributeErrorNone hrl]
  obtain ⟨l, hl, hmem⟩ := runLoop_events_shape env lat_start long_start
      (calc_latitude_shift env.screen.2 (offT + offB))
      (calc_longitude_shift env.screen.1 (offL + offR))
      scale sleep_time offL offT offR offB env.screen.1 env.screen.2
      (cellList number_rows number_cols) 0
      { events := [Event.launch, Event.maximize],
        images := List.replicate number_rows
                    (List.replicate number_cols none) }
  rw [hrl] at hl
  refine ⟨rfl, ?_, ?_⟩
  · intro hin
    rw [hl] at hin
    rcases List.mem_append.mp hin with h | h
    · simp at h
    · rcases hmem _ h with h1 | ⟨la, lo, h1⟩
      · cases h1
      · cases h1
  · intro s w h hin
    rw [hl] at hin
    rcases List.mem_append.mp hin with hh | hh
    · simp at hh
    · rcases hmem _ hh with h1 | ⟨la, lo, h1⟩
      · cases h1
      · cases h1

/-- Environment for the C4 witness: every capture returns a null image. -/
def nullCaptureEnv : Env :=
  ⟨fun _ => false, fun _ => true, (1920, 1080), fun _ _ => none, "ts"⟩

/-- C4 (witness): the amended statement instantiated at a 1×1 run whose
single capture fails. -/
theorem create_map_capture_failure_witness :
    (0 < 1 * 1 ∧
      screenshot nullCaptureEnv 0 nullCaptureEnv.screen.1
        nullCaptureEnv.screen.2 0 0 0 0 = none) ∧
    ((create_map nullCaptureEnv 0 0 1 1 1 0 0 0 0 0 none).2 =
        some PyError.attributeErrorNone ∧
      Event.stitch ∉ (create_map nullCaptureEnv 0 0 1 1 1 0 0 0 0 0 none).1 ∧
      ∀ s w h, Event.saveFile s w h ∉
        (create_map nullCaptureEnv 0 0 1 1 1 0 0 0 0 0 none).1) :=
  ⟨⟨Nat.one_pos, rfl⟩,
   create_map_capture_failure nullCaptureEnv 0 0 1 0 0 0 0 0 1 1 none 0
     (fun s h => by cases h) Nat.one_pos (fun m hm => by omega) rfl⟩

/-! ### Claim C5 -/

/-- C5: in a run where every capture succeeds, the navigations visit exactly
`rows × cols` cells in row-major order, and the coordinate navigated to at
cell `(row, col)` is
`(latStart + row · latShift, longStart + col · longShift)` with the shifts
computed by `calc_latitude_shift` / `calc_longitude_shift` from the screen
size and total offsets. -/
theorem create_map_navigation (env : Env)
    (lat_start long_start scale sleep_time offL offT offR offB : ℚ)
    (number_rows number_cols : ℕ)
    (h1 : 1 ≤ number_rows) (h2 : 1 ≤ number_cols)
    (hall : ∀ box k, (env.grab box k).isSome = true) :
    navsOf (create_map env lat_start long_start number_rows number_cols
        scale sleep_time offL offT offR offB none).1 =
      (List.range number_rows).flatMap (fun (row : ℕ) =>
        (List.range number_cols).map (fun (col : ℕ) =>
          (lat_start + calc_latitude_shift env.screen.2 (offT + offB) * row,
           long_start +
             calc_longitude_shift env.screen.1 (offL + offR) * col))) ∧
    (navsOf (create_map env lat_start long_start number_rows number_cols
        scale sleep_time offL offT offR offB none).1).length =
      number_rows * number_cols ∧
    ∀ row col, row < number_rows → col < number_cols →
      (navsOf (create_map env lat_start long_start number_rows number_cols
          scale sleep_time offL offT offR offB none).1)[row * number_cols
            + col]? =
        some (lat_start + calc_latitude_shift env.screen.2 (offT + offB) * row,
              long_start +
                calc_longitude_shift env.screen.1 (offL + offR) * col) := by
  have hv : ¬ (truthyOutfile (none : Option String) = true ∧
      ¬ outfile_ok env ((none : Option String).getD "") = true) := by
    simp [truthyOutfile]
  rw [create_map_of_valid env lat_start long_start scale sleep_time
        offL offT offR offB number_rows number_cols none hv]
  rcases hrl : runLoop env lat_start long_start
      (calc_latitude_shift env.screen.2 (offT + offB))
      (calc_longitude_shift env.screen.1 (offL + offR))
      scale sleep_time offL offT offR offB env.screen.1 env.screen.2
      (cellList number_rows number_cols) 0
      { events := [Event.launch, Event.maximize],
        images := List.replicate number_rows
                    (List.replicate number_cols none) } with ⟨st, err⟩
  obtain ⟨hs2, hsev⟩ := runLoop_success env lat_start long_start
      (calc_latitude_shift env.screen.2 (offT + offB))
      (calc_longitude_shift env.screen.1 (offL + offR))
      scale sleep_time offL offT offR offB env.screen.1 env.screen.2
      (cellList number_rows number_cols) hall 0
      { events := [Event.launch, Event.maximize],
        images := List.replicate number_rows
                    (List.replicate number_cols none) }
  rw [hrl] at hs2 hsev
  dsimp only at hs2 hsev
  subst hs2
  rw [create_map_body_ok env lat_start long_start scale sleep_time
        offL offT offR offB number_rows number_cols none st hrl]
  dsimp only
  rw [navsOf_append, navsOf_tail_nil, List.append_nil, hsev, navsOf_append,
      navsOf_launch_max, List.nil_append,
      navsOf_flat (cellList number_rows number_cols)
        (fun rc => lat_start + calc_latitude_shift env.screen.2 (offT + offB)
          * rc.1)
        (fun rc => long_start + calc_longitude_shift env.screen.1 (offL + offR)
          * rc.2) sleep_time]
  refine ⟨?_, ?_, ?_⟩
  · exact cellList_map_flat number_rows number_cols _
  · simp [cellList_length]
  · intro row col hr hc
    rw [List.getElem?_map, cellList_getElem number_rows number_cols row col
          hr hc]
    rfl

/-- Environment for the C5 witness: all captures succeed. -/
def allOkEnv : Env :=
  ⟨fun _ => false, fun _ => true, (1920, 1080), fun _ _ => some default,
   "20200101"⟩

/-- C5 (witness): the navigation-order statement instantiated at a 2×2 grid
starting at `(10, 20)`. -/
theorem create_map_navigation_witness :
    (1 ≤ 2 ∧ ∀ (box : ℤ × ℤ × ℤ × ℤ) (k : ℕ),
        (allOkEnv.grab box k).isSome = true) ∧
    navsOf (create_map allOkEnv 10 20 2 2 1 0 0 0 0 0 none).1 =
      (List.range 2).flatMap (fun (row : ℕ) => (List.range 2).map
        (fun (col : ℕ) =>
        ((10 : ℚ) + calc_latitude_shift allOkEnv.screen.2 (0 + 0) * row,
         (20 : ℚ) + calc_longitude_shift allOkEnv.screen.1 (0 + 0) * col))) :=
  ⟨⟨by omega, fun box k => rfl⟩,
   (create_map_navigation allOkEnv 10 20 1 0 0 0 0 0 2 2 (by omega) (by omega)
     (fun box k => rfl)).1⟩

/-! ### Stitching lemmas: where `combine_images` puts each pixel -/

lemma getD_zero {α : Type} (a : α) (l : List α) (d : α) :
    (a :: l).getD 0 d = a := rfl

lemma getD_succ {α : Type} (a : α) (l : List α) (n : ℕ) (d : α) :
    (a :: l).getD (n + 1) d = l.getD n d := rfl

lemma getD_mem {α : Type} (l : List α) (r : ℕ) (d : α) (h : r < l.length) :
    l.getD r d ∈ l := by
  rw [List.getD_eq_getElem?_getD, List.getElem?_eq_getElem h]
  exact List.getElem_mem h

lemma paste_pix_in (c img : Image) (ox oy x y : ℕ)
    (h : ox ≤ x ∧ x < ox + img.width ∧ oy ≤ y ∧ y < oy + img.height) :
    (c.paste img ox oy).pix x y = img.pix (x - ox) (y - oy) := by
  unfold Image.paste
  dsimp only
  rw [if_pos h]

lemma paste_pix_out (c img : Image) (ox oy x y : ℕ)
    (h : ¬(ox ≤ x ∧ x < ox + img.width ∧ oy ≤ y ∧ y < oy + img.height)) :
    (c.paste img ox oy).pix x y = c.pix x y := by
  unfold Image.paste
  dsimp only
  rw [if_neg h]

lemma stitchRow_width (w oy : ℕ) :
    ∀ (ps : List (ℕ × Image)) (canvas : Image),
      (stitchRow w oy canvas ps).width = canvas.width := by
  intro ps
  induction ps with
  | nil => intro canvas; rfl
  | cons p rest ih => intro canvas; exact ih _

lemma stitchRow_height (w oy : ℕ) :
    ∀ (ps : List (ℕ × Image)) (canvas : Image),
      (stitchRow w oy canvas ps).height = canvas.height := by
  intro ps
  induction ps with
  | nil => intro canvas; rfl
  | cons p rest ih => intro canvas; exact ih _

lemma stitchGrid_width (w h : ℕ) :
    ∀ (rows : List (ℕ × List Image)) (canvas : Image),
      (stitchGrid w h canvas rows).width = canvas.width := by
  intro rows
  induction rows with
  | nil => intro canvas; rfl
  | cons r rest ih =>
    intro canvas
    exact (ih _).trans (stitchRow_width w (r.1 * h) r.2.enum canvas)

lemma stitchGrid_height (w h : ℕ) :
    ∀ (rows : List (ℕ × List Image)) (canvas : Image),
      (stitchGrid w h canvas rows).height = canvas.height := by
  intro rows
  induction rows with
  | nil => intro canvas; rfl
  | cons r rest ih =>
    intro canvas
    exact (ih _).trans (stitchRow_height w (r.1 * h) r.2.enum canvas)

lemma stitchRow_pix_miss (w oy x y : ℕ) :
    ∀ (row : List Image) (n : ℕ) (canvas : Image),
      (∀ c, c < row.length →
        ¬((n + c) * w ≤ x ∧ x < (n + c) * w + (row.getD c default).width ∧
          oy ≤ y ∧ y < oy + (row.getD c default).height)) →
      (stitchRow w oy canvas (row.enumFrom n)).pix x y = canvas.pix x y := by
  intro row
  induction row with
  | nil => intro n canvas _; rfl
  | cons img rest ih =>
    intro n canvas hmiss
    show (stitchRow w oy (canvas.paste img (n * w) oy)
            (rest.enumFrom (n + 1))).pix x y = canvas.pix x y
    have hmiss' : ∀ c, c < rest.length →
        ¬((n + 1 + c) * w ≤ x ∧
          x < (n + 1 + c) * w + (rest.getD c default).width ∧
          oy ≤ y ∧ y < oy + (rest.getD c default).height) := by
      intro c hc
      have hcontra := hmiss (c + 1) (Nat.succ_lt_succ hc)
      have e : n + (c + 1) = n + 1 + c := by omega
      rw [e] at hcontra
      simp only [getD_succ] at hcontra
      exact hcontra
    rw [ih (n + 1) (canvas.paste img (n * w) oy) hmiss']
    apply paste_pix_out
    have h0 := hmiss 0 (Nat.succ_pos rest.length)
    rw [Nat.add_zero] at h0
    simp only [getD_zero] at h0
    exact h0

lemma stitchRow_pix_hit (w oy : ℕ) :
    ∀ (row : List Image) (n c i j : ℕ) (canvas : Image),
      c < row.length → i < (row.getD c default).width →
      j < (row.getD c default).height →
      (∀ e, c < e → e < row.length →
        ¬((n + e) * w ≤ (n + c) * w + i ∧
          (n + c) * w + i < (n + e) * w + (row.getD e default).width ∧
          oy ≤ oy + j ∧ oy + j < oy + (row.getD e default).height)) →
      (stitchRow w oy canvas (row.enumFrom n)).pix ((n + c) * w + i)
          (oy + j) =
        (row.getD c default).pix i j := by
  intro row
  induction row with
  | nil => intro n c i j canvas hc; exact absurd hc (Nat.not_lt_zero c)
  | cons img rest ih =>
    intro n c i j canvas hc hi hj hlater
    cases c with
    | zero =>
      show (stitchRow w oy (canvas.paste img (n * w) oy)
              (rest.enumFrom (n + 1))).pix ((n + 0) * w + i) (oy + j) =
           ((img :: rest).getD 0 default).pix i j
      simp only [Nat.add_zero, getD_zero]
      have hmiss' : ∀ e, e < rest.length →
          ¬((n + 1 + e) * w ≤ n * w + i ∧
            n * w + i < (n + 1 + e) * w + (rest.getD e default).width ∧
            oy ≤ oy + j ∧ oy + j < oy + (rest.getD e default).height) := by
        intro e he
        have hcontra := hlater (e + 1) (Nat.succ_pos e) (Nat.succ_lt_succ he)
        have e1 : n + (e + 1) = n + 1 + e := by omega
        rw [Nat.add_zero, e1] at hcontra
        simp only [getD_succ] at hcontra
        exact hcontra
      rw [stitchRow_pix_miss w oy (n * w + i) (oy + j) rest (n + 1)
            (canvas.paste img (n * w) oy) hmiss']
      rw [paste_pix_in]
      · congr 1 <;> omega
      · have hi' : i < img.width := by simpa only [getD_zero] using hi
        have hj' : j < img.height := by simpa only [getD_zero] using hj
        exact ⟨Nat.le_add_right _ _, by omega, Nat.le_add_right _ _, by omega⟩
    | succ cp =>
      show (stitchRow w oy (canvas.paste img (n * w) oy)
              (rest.enumFrom (n + 1))).pix ((n + (cp + 1)) * w + i)
            (oy + j) =
           ((img :: rest).getD (cp + 1) default).pix i j
      have e1 : n + (cp + 1) = n + 1 + cp := by omega
      rw [e1, getD_succ]
      apply ih (n + 1) cp i j (canvas.paste img (n * w) oy)
        (Nat.lt_of_succ_lt_succ hc) hi hj
      intro e he1 he2
      have hcontra := hlater (e + 1) (Nat.succ_lt_succ he1)
        (Nat.succ_lt_succ he2)
      have e2 : n + (e + 1) = n + 1 + e := by omega
      rw [e1, e2] at hcontra
      simp only [getD_succ] at hcontra
      exact hcontra

lemma stitchGrid_pix_miss (w h x y : ℕ) :
    ∀ (grids : List (List Image)) (n : ℕ) (canvas : Image),
      (∀ r, r < grids.length → ∀ c, c < (grids.getD r []).length →
        ¬(c * w ≤ x ∧
          x < c * w + ((grids.getD r []).getD c default).width ∧
          (n + r) * h ≤ y ∧
          y < (n + r) * h + ((grids.getD r []).getD c default).height)) →
      (stitchGrid w h canvas (grids.enumFrom n)).pix x y = canvas.pix x y := by
  intro grids
  induction grids with
  | nil => intro n canvas _; rfl
  | cons row rest ih =>
    intro n canvas hmiss
    show (stitchGrid w h (stitchRow w (n * h) canvas row.enum)
            (rest.enumFrom (n + 1))).pix x y = canvas.pix x y
    have hmiss' : ∀ r, r < rest.length → ∀ c, c < (rest.getD r []).length →
        ¬(c * w ≤ x ∧
          x < c * w + ((rest.getD r []).getD c default).width ∧
          (n + 1 + r) * h ≤ y ∧
          y < (n + 1 + r) * h + ((rest.getD r []).getD c default).height) := by
      intro r hr c hc
      have hcontra := hmiss (r + 1) (Nat.succ_lt_succ hr) c hc
      have e : n + (r + 1) = n + 1 + r := by omega
      rw [e] at hcontra
      simp only [getD_succ] at hcontra
      exact hcontra
    rw [ih (n + 1) (stitchRow w (n * h) canvas row.enum) hmiss']
    rw [show row.enum = row.enumFrom 0 from rfl]
    apply stitchRow_pix_miss
    intro c hc
    have h0 := hmiss 0 (Nat.succ_pos rest.length) c hc
    rw [Nat.add_zero] at h0
    simp only [getD_zero] at h0
    rw [Nat.zero_add]
    exact h0

lemma stitchGrid_pix_hit (w h : ℕ) :
    ∀ (grids : List (List Image)) (n r c i j : ℕ) (canvas : Image),
      r < grids.length → c < (grids.getD r []).length →
      i < ((grids.getD r []).getD c default).width →
      j < ((grids.getD r []).getD c default).height →
      (∀ e, c < e → e < (grids.getD r []).length →
        ¬(e * w ≤ c * w + i ∧
          c * w + i < e * w + ((grids.getD r []).getD e default).width ∧
          (n + r) * h ≤ (n + r) * h + j ∧
          (n + r) * h + j < (n + r) * h +
            ((grids.getD r []).getD e default).height)) →
      (∀ rr, r < rr → rr < grids.length →
        ∀ cc, cc < (grids.getD rr []).length →
        ¬(cc * w ≤ c * w + i ∧
          c * w + i < cc * w + ((grids.getD rr []).getD cc default).width ∧
          (n + rr) * h ≤ (n + r) * h + j ∧
          (n + r) * h + j < (n + rr) * h +
            ((grids.getD rr []).getD cc default).height)) →
      (stitchGrid w h canvas (grids.enumFrom n)).pix (c * w + i)
          ((n + r) * h + j) =
        ((grids.getD r []).getD c default).pix i j := by
  intro grids
  induction grids with
  | nil => intro n r c i j canvas hr; exact absurd hr (Nat.not_lt_zero r)
  | cons row rest ih =>
    intro n r c i j canvas hr hc hi hj hrowlater hgridlater
    cases r with
    | zero =>
      show (stitchGrid w h (stitchRow w (n * h) canvas row.enum)
              (rest.enumFrom (n + 1))).pix (c * w + i) ((n + 0) * h + j) =
           (((row :: rest).getD 0 []).getD c default).pix i j
      simp only [Nat.add_zero, getD_zero]
      have hgmiss : ∀ rr, rr < rest.length →
          ∀ cc, cc < (rest.getD rr []).length →
          ¬(cc * w ≤ c * w + i ∧
            c * w + i < cc * w + ((rest.getD rr []).getD cc default).width ∧
            (n + 1 + rr) * h ≤ n * h + j ∧
            n * h + j < (n + 1 + rr) * h +
              ((rest.getD rr []).getD cc default).height) := by
        intro rr hrr cc hcc
        have hcontra := hgridlater (rr + 1) (Nat.succ_pos rr)
          (Nat.succ_lt_succ hrr) cc hcc
        have e : n + (rr + 1) = n + 1 + rr := by omega
        rw [Nat.add_zero, e] at hcontra
        simp only [getD_succ] at hcontra
        exact hcontra
      rw [stitchGrid_pix_miss w h (c * w + i) (n * h + j) rest (n + 1)
            (stitchRow w (n * h) canvas row.enum) hgmiss]
      rw [show row.enum = row.enumFrom 0 from rfl]
      have hc' : c < row.length := by simpa only [getD_zero] using hc
      have hi' : i < (row.getD c default).width := by
        simpa only [getD_zero] using hi
      have hj' : j < (row.getD c default).height := by
        simpa only [getD_zero] using hj
      have hlater' : ∀ e, c < e → e < row.length →
          ¬((0 + e) * w ≤ (0 + c) * w + i ∧
            (0 + c) * w + i < (0 + e) * w + (row.getD e default).width ∧
            n * h ≤ n * h + j ∧
            n * h + j < n * h + (row.getD e default).height) := by
        intro e he1 he2
        have hcontra := hrowlater e he1 (by simpa only [getD_zero] using he2)
        rw [Nat.add_zero] at hcontra
        simp only [getD_zero] at hcontra
        simp only [Nat.zero_add]
        exact hcontra
      have H := stitchRow_pix_hit w (n * h) row 0 c i j canvas hc' hi' hj'
        hlater'
      simp only [Nat.zero_add] at H
      exact H
    | succ rp =>
      show (stitchGrid w h (stitchRow w (n * h) canvas row.enum)
              (rest.enumFrom (n + 1))).pix (c * w + i)
            ((n + (rp + 1)) * h + j) =
           (((row :: rest).getD (rp + 1) []).getD c default).pix i j
      have e1 : n + (rp + 1) = n + 1 + rp := by omega
      rw [e1, getD_succ]
      apply ih (n + 1) rp c i j (stitchRow w (n * h) canvas row.enum)
        (Nat.lt_of_succ_lt_succ hr) hc hi hj
      · intro e he1 he2
        have hcontra := hrowlater e he1 he2
        rw [e1] at hcontra
        simp only [getD_succ] at hcontra
        exact hcontra
      · intro rr hrr1 hrr2 cc hcc
        have hcontra := hgridlater (rr + 1) (Nat.succ_lt_succ hrr1)
          (Nat.succ_lt_succ hrr2) cc hcc
        have e2 : n + (rr + 1) = n + 1 + rr := by omega
        rw [e1, e2] at hcontra
        simp only [getD_succ] at hcontra
        exact hcontra

/-! ### Claims C6, C10, C1 -/

/-- C6: on a grid of `rows × cols` tiles all sharing width `w` and height
`h`, `combine_images` returns an image of dimensions `(cols·w, rows·h)` in
which the pixel at `(c·w + i, r·h + j)` (for `i < w`, `j < h`) is exactly
pixel `(i, j)` of the tile at grid position `(r, c)` — exact tiling with no
overlap, gaps or rescaling. -/
theorem combine_images_uniform (images : List (List Image))
    (number_rows number_cols w h : ℕ)
    (hrows : images.length = number_rows)
    (hrect : ∀ row ∈ images, row.length = number_cols)
    (hdims : ∀ row ∈ images, ∀ tile ∈ row,
      tile.width = w ∧ tile.height = h)
    (h1 : 1 ≤ number_rows) (h2 : 1 ≤ number_cols) :
    (combine_images images).width = number_cols * w ∧
    (combine_images images).height = number_rows * h ∧
    ∀ r c i j, r < number_rows → c < number_cols → i < w → j < h →
      (combine_images images).pix (c * w + i) (r * h + j) =
        ((images.getD r []).getD c default).pix i j := by
  obtain ⟨row0, rest, rfl⟩ : ∃ row0 rest, images = row0 :: rest := by
    cases images with
    | nil => simp at hrows; omega
    | cons a b => exact ⟨a, b, rfl⟩
  obtain ⟨t0, row0tl, rfl⟩ : ∃ t0 tl, row0 = t0 :: tl := by
    cases row0 with
    | nil =>
      have := hrect [] (List.mem_cons_self _ _)
      simp at this
      omega
    | cons a b => exact ⟨a, b, rfl⟩
  have ht0 := hdims _ (List.mem_cons_self _ _) t0 (List.mem_cons_self _ _)
  have hlen0 : (t0 :: row0tl).length = number_cols :=
    hrect _ (List.mem_cons_self _ _)
  have hcomb : combine_images ((t0 :: row0tl) :: rest) =
      stitchGrid t0.width t0.height
        (Image.new (t0.width * (t0 :: row0tl).length)
          (t0.height * ((t0 :: row0tl) :: rest).length))
        (((t0 :: row0tl) :: rest).enumFrom 0) := rfl
  rw [hcomb, ht0.1, ht0.2, hlen0, hrows]
  have hrowmem : ∀ rr, rr < number_rows →
      ((t0 :: row0tl) :: rest).getD rr [] ∈ (t0 :: row0tl) :: rest := by
    intro rr hrr
    apply getD_mem
    rw [hrows]
    exact hrr
  have hlenr : ∀ rr, rr < number_rows →
      (((t0 :: row0tl) :: rest).getD rr []).length = number_cols := by
    intro rr hrr
    exact hrect _ (hrowmem rr hrr)
  have htile : ∀ rr cc, rr < number_rows → cc < number_cols →
      ((((t0 :: row0tl) :: rest).getD rr []).getD cc default).width = w ∧
      ((((t0 :: row0tl) :: rest).getD rr []).getD cc default).height = h := by
    intro rr cc hrr hcc
    apply hdims _ (hrowmem rr hrr)
    apply getD_mem
    rw [hlenr rr hrr]
    exact hcc
  refine ⟨?_, ?_, ?_⟩
  · rw [stitchGrid_width]
    exact Nat.mul_comm w number_cols
  · rw [stitchGrid_height]
    exact Nat.mul_comm h number_rows
  · intro r c i j hr hc hi hj
    have hgr : r < ((t0 :: row0tl) :: rest).length := by rw [hrows]; exact hr
    have hgc : c < (((t0 :: row0tl) :: rest).getD r []).length := by
      rw [hlenr r hr]; exact hc
    have hgi : i <
        ((((t0 :: row0tl) :: rest).getD r []).getD c default).width := by
      rw [(htile r c hr hc).1]; exact hi
    have hgj : j <
        ((((t0 :: row0tl) :: rest).getD r []).getD c default).height := by
      rw [(htile r c hr hc).2]; exact hj
    have hrowlater : ∀ e, c < e →
        e < (((t0 :: row0tl) :: rest).getD r []).length →
        ¬(e * w ≤ c * w + i ∧
          c * w + i < e * w +
            ((((t0 :: row0tl) :: rest).getD r []).getD e default).width ∧
          (0 + r) * h ≤ (0 + r) * h + j ∧
          (0 + r) * h + j < (0 + r) * h +
            ((((t0 :: row0tl) :: rest).getD r []).getD e default).height)
        := by
      intro e he1 he2
      rintro ⟨ha, -, -, -⟩
      rw [hlenr r hr] at he2
      have k1 : c * w + w ≤ e * w := by
        have := Nat.mul_le_mul_right w (show c + 1 ≤ e by omega)
        rwa [Nat.succ_mul] at this
      have k2 : c * w + w ≤ c * w + i := le_trans k1 ha
      have k3 : w ≤ i := Nat.le_of_add_le_add_left k2
      omega
    have hgridlater : ∀ rr, r < rr → rr < ((t0 :: row0tl) :: rest).length →
        ∀ cc, cc < (((t0 :: row0tl) :: rest).getD rr []).length →
        ¬(cc * w ≤ c * w + i ∧
          c * w + i < cc * w +
            ((((t0 :: row0tl) :: rest).getD rr []).getD cc default).width ∧
          (0 + rr) * h ≤ (0 + r) * h + j ∧
          (0 + r) * h + j < (0 + rr) * h +
            ((((t0 :: row0tl) :: rest).getD rr []).getD cc default).height)
        := by
      intro rr hrr1 hrr2 cc hcc
      rintro ⟨-, -, hc3, -⟩
      simp only [Nat.zero_add] at hc3
      have k1 : r * h + h ≤ rr * h := by
        have := Nat.mul_le_mul_right h (show r + 1 ≤ rr by omega)
        rwa [Nat.succ_mul] at this
      have k2 : r * h + h ≤ r * h + j := le_trans k1 hc3
      have k3 : h ≤ j := Nat.le_of_add_le_add_left k2
      omega
    have H := stitchGrid_pix_hit w h ((t0 :: row0tl) :: rest) 0 r c i j
      (Image.new (w * number_cols) (h * number_rows)) hgr hgc hgi hgj
      hrowlater hgridlater
    simp only [Nat.zero_add] at H
    exact H

/-- A tile for the C6 witness grid, carrying its grid position in its pixel
values. -/
def tile6 (r c : ℕ) : Image := ⟨100, 50, fun x y => (r, c, x + y)⟩

/-- The 2×3 uniform witness grid of 100×50 tiles. -/
def grid6 : List (List Image) :=
  [[tile6 0 0, tile6 0 1, tile6 0 2], [tile6 1 0, tile6 1 1, tile6 1 2]]

/-- C6 (witness): the uniform-stitch statement instantiated at a 2×3 grid of
100×50 tiles — a 300×100 final image with every tile at its offset. -/
theorem combine_images_uniform_witness :
    (grid6.length = 2 ∧ (∀ row ∈ grid6, row.length = 3) ∧
      (∀ row ∈ grid6, ∀ tile ∈ row, tile.width = 100 ∧ tile.height = 50)) ∧
    ((combine_images grid6).width = 3 * 100 ∧
     (combine_images grid6).height = 2 * 50 ∧
     ∀ r c i j, r < 2 → c < 3 → i < 100 → j < 50 →
       (combine_images grid6).pix (c * 100 + i) (r * 50 + j) =
         ((grid6.getD r []).getD c default).pix i j) :=
  ⟨⟨rfl, by decide, by decide⟩,
   combine_images_uniform grid6 2 3 100 50 rfl (by decide) (by decide)
     (by omega) (by omega)⟩

/-- C10: on any rectangular nonempty grid, even with non-uniform tile sizes,
`combine_images` returns an image whose dimensions are
`(width(tile00)·cols, height(tile00)·rows)` — determined solely by
`tile[0][0]` and the grid shape — and pastes every tile at the offset
`(c·w00, r·h00)` derived from `tile[0][0]`'s dimensions with no size check:
a pixel inside tile `(r,c)`'s own extent shows that tile unless a
later-pasted tile's region covers the point (silent overlap); points covered
by no tile remain blank. -/
theorem combine_images_no_size_check (images : List (List Image))
    (number_rows number_cols w00 h00 : ℕ)
    (hrows : images.length = number_rows)
    (hrect : ∀ row ∈ images, row.length = number_cols)
    (hw : ((images.headD []).headD default).width = w00)
    (hh : ((images.headD []).headD default).height = h00)
    (h1 : 1 ≤ number_rows) (h2 : 1 ≤ number_cols) :
    (combine_images images).width = w00 * number_cols ∧
    (combine_images images).height = h00 * number_rows ∧
    ∀ r c i j, r < number_rows → c < number_cols →
      i < ((images.getD r []).getD c default).width →
      j < ((images.getD r []).getD c default).height →
      (∀ e, c < e → e < number_cols →
        ¬(e * w00 ≤ c * w00 + i ∧
          c * w00 + i < e * w00 +
            ((images.getD r []).getD e default).width ∧
          r * h00 ≤ r * h00 + j ∧
          r * h00 + j < r * h00 +
            ((images.getD r []).getD e default).height)) →
      (∀ rr, r < rr → rr < number_rows → ∀ cc, cc < number_cols →
        ¬(cc * w00 ≤ c * w00 + i ∧
          c * w00 + i < cc * w00 +
            ((images.getD rr []).getD cc default).width ∧
          rr * h00 ≤ r * h00 + j ∧
          r * h00 + j < rr * h00 +
            ((images.getD rr []).getD cc default).height)) →
      (combine_images images).pix (c * w00 + i) (r * h00 + j) =
        ((images.getD r []).getD c default).pix i j := by
  obtain ⟨row0, rest, rfl⟩ : ∃ row0 rest, images = row0 :: rest := by
    cases images with
    | nil => simp at hrows; omega
    | cons a b => exact ⟨a, b, rfl⟩
  obtain ⟨t0, row0tl, rfl⟩ : ∃ t0 tl, row0 = t0 :: tl := by
    cases row0 with
    | nil =>
      have := hrect [] (List.mem_cons_self _ _)
      simp at this
      omega
    | cons a b => exact ⟨a, b, rfl⟩
  have hw' : t0.width = w00 := hw
  have hh' : t0.height = h00 := hh
  have hlen0 : (t0 :: row0tl).length = number_cols :=
    hrect _ (List.mem_cons_self _ _)
  have hcomb : combine_images ((t0 :: row0tl) :: rest) =
      stitchGrid t0.width t0.height
        (Image.new (t0.width * (t0 :: row0tl).length)
          (t0.height * ((t0 :: row0tl) :: rest).length))
        (((t0 :: row0tl) :: rest).enumFrom 0) := rfl
  rw [hcomb, hw', hh', hlen0, hrows]
  have hrowmem : ∀ rr, rr < number_rows →
      ((t0 :: row0tl) :: rest).getD rr [] ∈ (t0 :: row0tl) :: rest := by
    intro rr hrr
    apply getD_mem
    rw [hrows]
    exact hrr
  have hlenr : ∀ rr, rr < number_rows →
      (((t0 :: row0tl) :: rest).getD rr []).length = number_cols := by
    intro rr hrr
    exact hrect _ (hrowmem rr hrr)
  refine ⟨?_, ?_, ?_⟩
  · rw [stitchGrid_width]
    exact rfl
  · rw [stitchGrid_height]
    exact rfl
  · intro r c i j hr hc hi hj hrowlater hgridlater
    have hgr : r < ((t0 :: row0tl) :: rest).length := by rw [hrows]; exact hr
    have hgc : c < (((t0 :: row0tl) :: rest).getD r []).length := by
      rw [hlenr r hr]; exact hc
    have hrowlater' : ∀ e, c < e →
        e < (((t0 :: row0tl) :: rest).getD r []).length →
        ¬(e * w00 ≤ c * w00 + i ∧
          c * w00 + i < e * w00 +
            ((((t0 :: row0tl) :: rest).getD r []).getD e default).width ∧
          (0 + r) * h00 ≤ (0 + r) * h00 + j ∧
          (0 + r) * h00 + j < (0 + r) * h00 +
            ((((t0 :: row0tl) :: rest).getD r []).getD e default).height)
        := by
      intro e he1 he2
      rw [hlenr r hr] at he2
      simp only [Nat.zero_add]
      exact hrowlater e he1 he2
    have hgridlater' : ∀ rr, r < rr → rr < ((t0 :: row0tl) :: rest).length →
        ∀ cc, cc < (((t0 :: row0tl) :: rest).getD rr []).length →
        ¬(cc * w00 ≤ c * w00 + i ∧
          c * w00 + i < cc * w00 +
            ((((t0 :: row0tl) :: rest).getD rr []).getD cc default).width ∧
          (0 + rr) * h00 ≤ (0 + r) * h00 + j ∧
          (0 + r) * h00 + j < (0 + rr) * h00 +
            ((((t0 :: row0tl) :: rest).getD rr []).getD cc default).height)
        := by
      intro rr hrr1 hrr2 cc hcc
      rw [hrows] at hrr2
      rw [hlenr rr hrr2] at hcc
      simp only [Nat.zero_add]
      exact hgridlater rr hrr1 hrr2 cc hcc
    have H := stitchGrid_pix_hit w00 h00 ((t0 :: row0tl) :: rest) 0 r c i j
      (Image.new (w00 * number_cols) (h00 * number_rows)) hgr hgc hi hj
      hrowlater' hgridlater'
    simp only [Nat.zero_add] at H
    exact H

/-- A 100×50 tile whose pixels are tagged `1` (the `tile[0][0]` of the
mismatched grids below). -/
def tileA : Image := ⟨100, 50, fun x y => (1, x, y)⟩

/-- A 200×80 tile whose pixels are tagged `2` — a size mismatch with
`tileA`. -/
def tileB : Image := ⟨200, 80, fun x y => (2, x, y)⟩

/-- The mismatched 2×1 witness grid. -/
def gridM : List (List Image) := [[tileA], [tileB]]

/-- C10 (witness): the no-size-check statement instantiated at the
mismatched 2×1 grid `[[tileA], [tileB]]` with `tileA` 100×50 and `tileB`
200×80. -/
theorem combine_images_no_size_check_witness :
    (gridM.length = 2 ∧ (∀ row ∈ gridM, row.length = 1) ∧
      ((gridM.headD []).headD default).width = 100 ∧
      ((gridM.headD []).headD default).height = 50) ∧
    ((combine_images gridM).width = 100 * 1 ∧
     (combine_images gridM).height = 50 * 2 ∧
     ∀ r c i j, r < 2 → c < 1 →
       i < ((gridM.getD r []).getD c default).width →
       j < ((gridM.getD r []).getD c default).height →
       (∀ e, c < e → e < 1 →
         ¬(e * 100 ≤ c * 100 + i ∧
           c * 100 + i < e * 100 + ((gridM.getD r []).getD e default).width ∧
           r * 50 ≤ r * 50 + j ∧
           r * 50 + j < r * 50 +
             ((gridM.getD r []).getD e default).height)) →
       (∀ rr, r < rr → rr < 2 → ∀ cc, cc < 1 →
         ¬(cc * 100 ≤ c * 100 + i ∧
           c * 100 + i < cc * 100 +
             ((gridM.getD rr []).getD cc default).width ∧
           rr * 50 ≤ r * 50 + j ∧
           r * 50 + j < rr * 50 +
             ((gridM.getD rr []).getD cc default).height)) →
       (combine_images gridM).pix (c * 100 + i) (r * 50 + j) =
         ((gridM.getD r []).getD c default).pix i j) :=
  ⟨⟨rfl, by decide, rfl, rfl⟩,
   combine_images_no_size_check gridM 2 1 100 50 rfl (by decide) rfl rfl
     (by omega) (by omega)⟩

/-- C1 (counterexample): `combine_images` on the grid `[[tileA], [tileB]]`,
in which `tileB`'s size differs from `tileA = tile[0][0]`, does not fail: it
returns a composed image (sized 100×100 from `tileA` and the grid shape)
whose origin pixel is `tileA`'s origin pixel.  The Python function contains
no dimension check and no raise — it is a total function on grids. -/
theorem combine_images_mismatch_cex :
    tileB.width ≠ tileA.width ∧
    (combine_images [[tileA], [tileB]]).width = 100 ∧
    (combine_images [[tileA], [tileB]]).height = 100 ∧
    (combine_images [[tileA], [tileB]]).pix 0 0 = tileA.pix 0 0 := by
  decide

/-- C1 (amended): on a grid with one tile of a different size,
`combine_images` does not raise `DimensionMismatch`; it returns a composed
image sized by `tile[0][0]` and the grid shape, with the mismatched tile
pasted at the `tile[0][0]`-derived offset (here `tileB`'s pixel `(5,7)`
appears at canvas position `(5, 57)`). -/
theorem combine_images_mismatch_returns :
    (combine_images [[tileA], [tileB]]).width = tileA.width * 1 ∧
    (combine_images [[tileA], [tileB]]).height = tileA.height * 2 ∧
    (combine_images [[tileA], [tileB]]).pix 5 57 = tileB.pix 5 7 := by
  decide

end HugeGmaps
